import Mathlib

/-!
Shallow embedding of the peerlab-gateway allocation core (Rust sources
`src/pool_asns.rs`, `src/prefix_pool.rs`, `src/database.rs`, `src/lib.rs`).

Modelling conventions:
* Timestamps are integers (seconds since the epoch); `chrono::Duration::hours d`
  becomes `d * 3600`.
* An `Ipv6Net` is its 128-bit address value together with its prefix length;
  the database `cidr` column and its textual wire form are identified with it.
* Database state is a pair of row lists (`user_asn_mappings`, `prefix_leases`).
  The surrogate `id : Uuid` column is generated by the database and never read
  by the program, so it is omitted from the row records.
* Rust `Result<_, sqlx::Error>` store operations are embedded on their success
  path: the store functions are pure over the explicit database state.
* SQL `SELECT ... WHERE ... fetch_optional` is `List.find?`; `WHERE` filters
  are `List.filter`; `ORDER BY c DESC` is `List.insertionSort` by `≥` on `c`.
* The `user_id` column carried by `user_asn_mappings` in the handler variant of
  `lib.rs` (`get_or_create_user_asn(&user_hash, Some(&auth_info.sub), asn)`,
  `asn_mapping.user_id`) is kept as an `Option String` field.
-/

namespace PeerlabGateway

/-- IPv6 network, models `ipnet::Ipv6Net`: 128-bit address plus prefix length. -/
structure Ipv6Net where
  addr : Nat
  len : Nat
deriving DecidableEq

/-- Row of the `user_asn_mappings` table (struct `UserAsnMapping` in
`src/database.rs`, plus the `user_id` column used by the handlers in
`src/lib.rs`). -/
structure UserAsnMapping where
  user_hash : String
  user_id : Option String
  asn : Int
  created_at : Int
  updated_at : Int
deriving DecidableEq

/-- Row of the `prefix_leases` table (struct `PrefixLease` in
`src/database.rs`). The field `pfx` models the `prefix` column (a Lean
keyword forces the rename). -/
structure PrefixLease where
  user_hash : String
  pfx : Ipv6Net
  start_time : Int
  end_time : Int
  created_at : Int
  updated_at : Int
deriving DecidableEq

/-- State of the persistent store: the two tables behind struct `Database`. -/
structure Db where
  asn_mappings : List UserAsnMapping
  prefix_leases : List PrefixLease
deriving DecidableEq

/-- The empty database. -/
def Db.empty : Db := ⟨[], []⟩

/-! Store operations, from `src/database.rs`. -/

/-- Embeds `Database::get_user_asn`:
`SELECT * FROM user_asn_mappings WHERE user_hash = $1` with `fetch_optional`. -/
def get_user_asn (db : Db) (user_hash : String) : Option UserAsnMapping :=
  db.asn_mappings.find? (fun m => m.user_hash == user_hash)

/-- Embeds the SQL statement
`INSERT INTO user_asn_mappings (user_hash, asn) VALUES ($1, $2)
 ON CONFLICT (user_hash) DO UPDATE SET updated_at = NOW() RETURNING *`:
if a row keyed by `user_hash` already exists only its `updated_at` is touched
and that row is returned; otherwise a fresh row is inserted. -/
def upsert_user_asn (db : Db) (user_hash : String) (user_id : Option String)
    (asn : Int) (now : Int) : UserAsnMapping × Db :=
  match db.asn_mappings.find? (fun m => m.user_hash == user_hash) with
  | some m =>
      let m' : UserAsnMapping := { m with updated_at := now }
      (m', { db with
              asn_mappings :=
                db.asn_mappings.map (fun x => if x.user_hash == user_hash then m' else x) })
  | none =>
      let m : UserAsnMapping :=
        { user_hash := user_hash, user_id := user_id, asn := asn,
          created_at := now, updated_at := now }
      (m, { db with asn_mappings := db.asn_mappings ++ [m] })

/-- Embeds `Database::get_or_create_user_asn`: first try to fetch the existing
mapping for the handle and return it unchanged; only on a miss run the
insert-or-touch upsert. -/
def get_or_create_user_asn (db : Db) (user_hash : String) (user_id : Option String)
    (asn : Int) (now : Int) : UserAsnMapping × Db :=
  match db.asn_mappings.find? (fun m => m.user_hash == user_hash) with
  | some m => (m, db)
  | none => upsert_user_asn db user_hash user_id asn now

/-- Embeds `Database::create_prefix_lease`: `start_time = Utc::now()`,
`end_time = start_time + Duration::hours(duration_hours)`, then plain
`INSERT INTO prefix_leases ... RETURNING ...`. -/
def create_prefix_lease (db : Db) (user_hash : String) (pfx : Ipv6Net)
    (duration_hours : Int) (now : Int) : PrefixLease × Db :=
  let start_time := now
  let end_time := start_time + duration_hours * 3600
  let lease : PrefixLease :=
    { user_hash := user_hash, pfx := pfx, start_time := start_time,
      end_time := end_time, created_at := now, updated_at := now }
  (lease, { db with prefix_leases := db.prefix_leases ++ [lease] })

/-- Embeds `Database::get_active_user_leases`:
`SELECT ... FROM prefix_leases WHERE user_hash = $1 AND end_time > NOW()
 ORDER BY end_time DESC`. -/
def get_active_user_leases (db : Db) (user_hash : String) (now : Int) :
    List PrefixLease :=
  (db.prefix_leases.filter
      (fun l => l.user_hash == user_hash && decide (now < l.end_time))).insertionSort
    (fun a b => b.end_time ≤ a.end_time)

/-- Embeds `Database::get_all_active_leases`:
`SELECT ... FROM prefix_leases WHERE end_time > NOW() ORDER BY end_time DESC`. -/
def get_all_active_leases (db : Db) (now : Int) : List PrefixLease :=
  (db.prefix_leases.filter (fun l => decide (now < l.end_time))).insertionSort
    (fun a b => b.end_time ≤ a.end_time)

/-- Embeds `Database::get_user_info`: fetch the ASN mapping and the active
leases for the handle and wrap the pair in `Some` unconditionally. -/
def get_user_info (db : Db) (user_hash : String) (now : Int) :
    Option (Option UserAsnMapping × List PrefixLease) :=
  let asn_mapping := get_user_asn db user_hash
  let leases := get_active_user_leases db user_hash now
  some (asn_mapping, leases)

/-- Embeds `Database::get_all_user_mappings`:
`SELECT * FROM user_asn_mappings ORDER BY created_at DESC`, then for each
mapping its active leases. -/
def get_all_user_mappings (db : Db) (now : Int) :
    List (UserAsnMapping × List PrefixLease) :=
  (db.asn_mappings.insertionSort (fun a b => b.created_at ≤ a.created_at)).map
    (fun m => (m, get_active_user_leases db m.user_hash now))

/-! ASN pool, from `src/pool_asns.rs`. -/

/-- Loop body of `AsnPool::find_available_asn`: starting at `asn`, walk the
remaining `fuel` members of the range upward and return the first value not
contained in `assigned`. -/
def find_available_asn_aux (assigned : List Int) : Int → Nat → Option Int
  | _, 0 => none
  | asn, Nat.succ fuel =>
      if asn ∈ assigned then find_available_asn_aux assigned (asn + 1) fuel
      else some asn

/-- Embeds `AsnPool::find_available_asn` given the list of assigned ASNs read
from the store (`for asn in self.start..=self.end { if !assigned.contains(asn)
{ return Some(asn) } }; None`). -/
def find_available_asn (start «end» : Int) (assigned : List Int) : Option Int :=
  find_available_asn_aux assigned start («end» + 1 - start).toNat

/-- Occupancy snapshot used by `AsnPool::find_available_asn`: the `asn` column
of every row of `get_all_user_mappings`. -/
def assigned_asns (db : Db) (now : Int) : List Int :=
  (get_all_user_mappings db now).map (fun x => x.1.asn)

/-! Prefix pool, from `src/prefix_pool.rs`. -/

/-- Embeds `PrefixPool::find_available_prefix`: scan the loaded prefix list in
order and return the first prefix not contained in `leased_prefixes` (the
source's snake_case name is a Lean keyword suffix, hence the camelCase). -/
def findAvailablePrefix (prefixes leased_prefixes : List Ipv6Net) :
    Option Ipv6Net :=
  match prefixes with
  | [] => none
  | p :: rest =>
      if p ∈ leased_prefixes then findAvailablePrefix rest leased_prefixes
      else some p

/-! HTTP handler layer, from `src/lib.rs`. Handlers run after the JWT
middleware; `user_hash = hash_user_identifier(&auth_info.sub)` (a SHA-256 hex
digest) is taken as a parameter, the hash itself being outside the claims. -/

/-- Outcome of a handler: `Ok(Json(body))`, or an error pair of HTTP status
code and the `message` field of the JSON error body (whose `error` field
repeats the status code). -/
inductive HandlerResult (α : Type) where
  | ok : α → HandlerResult α
  | err : Nat → String → HandlerResult α
deriving DecidableEq

/-- Body of a successful `POST /api/user/asn` (struct `RequestAsnResponse`). -/
structure RequestAsnResponse where
  asn : Int
  message : String
deriving DecidableEq

/-- Body of a successful `POST /api/user/prefix` (struct
`RequestPrefixResponse`; `pfx` models its `prefix` field). -/
structure RequestPrefixResponse where
  pfx : Ipv6Net
  start_time : Int
  end_time : Int
  message : String
deriving DecidableEq

/-- One pool/store operation performed by the `request_prefix` handler, in
order of execution, recorded so that "rejected before any pool lookup or
store access" is expressible. -/
inductive PrefixStoreOp where
  | getAllActiveLeases
  | findPrefix
  | createLease
deriving DecidableEq

/-- Embeds handler `request_prefix`: validate `duration_hours`, read all
active leases, pick the first free pool prefix, insert the lease. Returns the
response, the updated store, and the trace of pool/store operations run. -/
def requestPrefix (pool : List Ipv6Net) (db : Db) (now : Int)
    (user_hash : String) (duration_hours : Int) :
    HandlerResult RequestPrefixResponse × Db × List PrefixStoreOp :=
  if duration_hours < 1 ∨ duration_hours > 24 then
    (.err 400 "Duration must be between 1 and 24 hours", db, [])
  else
    let active_leases := get_all_active_leases db now
    let leased_prefixes := active_leases.map (fun l => l.pfx)
    match findAvailablePrefix pool leased_prefixes with
    | none =>
        (.err 503 "No available prefixes at this time", db,
          [.getAllActiveLeases, .findPrefix])
    | some p =>
        let r := create_prefix_lease db user_hash p duration_hours now
        (.ok { pfx := r.1.pfx, start_time := r.1.start_time,
               end_time := r.1.end_time,
               message := "Prefix leased successfully" }, r.2,
          [.getAllActiveLeases, .findPrefix, .createLease])

/-- Embeds handler `request_asn` run sequentially against the store: check for
an existing mapping, scan the pool against current occupancy, then commit via
the upsert. `sub` is the authenticated subject, `user_hash` its digest. -/
def request_asn (asn_start asn_end : Int) (db : Db) (now : Int)
    (sub user_hash : String) : HandlerResult RequestAsnResponse × Db :=
  match get_user_asn db user_hash with
  | some existing =>
      (.ok { asn := existing.asn, message := "ASN already assigned" }, db)
  | none =>
      match find_available_asn asn_start asn_end (assigned_asns db now) with
      | none => (.err 503 "No available ASNs at this time", db)
      | some available_asn =>
          let r := get_or_create_user_asn db user_hash (some sub) available_asn now
          (.ok { asn := r.1.asn, message := "ASN assigned successfully" }, r.2)

/-! Decomposition of the two allocation handlers into their read (decide) and
write (commit) store phases. Each phase is one round of store access, so an
interleaving of two concurrent requests is a sequence of these phases; nothing
in the code serializes a request's read phase with its commit. -/

/-- Read phase of `request_asn` against a store snapshot: the candidate ASN
the handler goes on to commit, or `none` when it stops before committing
(mapping already present, or pool exhausted). -/
def request_asn_choose (asn_start asn_end : Int) (snapshot : Db) (now : Int)
    (user_hash : String) : Option Int :=
  match get_user_asn snapshot user_hash with
  | some _ => none
  | none => find_available_asn asn_start asn_end (assigned_asns snapshot now)

/-- Write phase of `request_asn`: the `get_or_create_user_asn` upsert. -/
def request_asn_commit (db : Db) (sub user_hash : String) (asn : Int)
    (now : Int) : Db :=
  (get_or_create_user_asn db user_hash (some sub) asn now).2

/-- Read phase of `request_prefix` against a store snapshot: the candidate
prefix the handler goes on to commit, or `none` when it stops first. -/
def request_prefix_choose (pool : List Ipv6Net) (snapshot : Db) (now : Int)
    (duration_hours : Int) : Option Ipv6Net :=
  if duration_hours < 1 ∨ duration_hours > 24 then none
  else
    findAvailablePrefix pool
      ((get_all_active_leases snapshot now).map (fun l => l.pfx))

/-- Write phase of `request_prefix`: the `create_prefix_lease` insert. -/
def request_prefix_commit (db : Db) (user_hash : String) (pfx : Ipv6Net)
    (duration_hours : Int) (now : Int) : Db :=
  (create_prefix_lease db user_hash pfx duration_hours now).2

/-! Service-facing mapping handlers and email enrichment, from `src/lib.rs`
(`get_all_mappings`, `get_user_mapping`) and the external
`get_user_email(user_id, api_url, app_id, app_secret)` collaborator. -/

/-- Signature of the external email lookup: arguments
`(user_id, management_api_url, app_id, app_secret)`, result an optional email
or an error string (`Result<Option<String>, String>`). -/
def EmailLookup : Type :=
  String → String → String → String → Except String (Option String)

/-- The enrichment-related optional configuration held in `AppState`. -/
structure EnrichCfg where
  management_api : Option String
  m2m_app_id : Option String
  m2m_app_secret : Option String

/-- Embeds the enrichment block shared by both mapping handlers: call the
lookup only when the user id and all three configuration values are present;
on lookup error log a warning and fall back to `none`. -/
def fetch_email (cfg : EnrichCfg) (lookup : EmailLookup)
    (user_id : Option String) : Option String :=
  match user_id, cfg.management_api, cfg.m2m_app_id, cfg.m2m_app_secret with
  | some uid, some api_url, some app_id, some app_secret =>
      match lookup uid api_url app_id app_secret with
      | .ok email => email
      | .error _ => none
  | _, _, _, _ => none

/-- One element of a mappings response (struct `UserMappingResponse`;
`prefixes` models its list of prefix strings). -/
structure UserMappingResponse where
  user_hash : String
  user_id : String
  email : Option String
  asn : Int
  prefixes : List Ipv6Net
deriving DecidableEq

/-- Body of `GET /service/mappings` (struct `AllMappingsResponse`). -/
structure AllMappingsResponse where
  mappings : List UserMappingResponse
deriving DecidableEq

/-- Shared response-building code of both mapping handlers: enrich with the
email, default a missing `user_id` to `""`, list the active lease prefixes. -/
def mk_user_mapping_response (cfg : EnrichCfg) (lookup : EmailLookup)
    (m : UserAsnMapping) (leases : List PrefixLease) : UserMappingResponse :=
  { user_hash := m.user_hash
    user_id := m.user_id.getD ""
    email := fetch_email cfg lookup m.user_id
    asn := m.asn
    prefixes := leases.map (fun l => l.pfx) }

/-- Embeds handler `get_all_mappings` (`GET /service/mappings`). -/
def get_all_mappings (db : Db) (now : Int) (cfg : EnrichCfg)
    (lookup : EmailLookup) : HandlerResult AllMappingsResponse :=
  let mappings := get_all_user_mappings db now
  .ok { mappings :=
          mappings.map (fun x => mk_user_mapping_response cfg lookup x.1 x.2) }

/-- Embeds handler `get_user_mapping` (`GET /service/mappings/{user_hash}`):
match on `Database::get_user_info`, with the 404 arms exactly as written. -/
def get_user_mapping (db : Db) (now : Int) (cfg : EnrichCfg)
    (lookup : EmailLookup) (user_hash : String) :
    HandlerResult UserMappingResponse :=
  match get_user_info db user_hash now with
  | some (some asn_mapping, leases) =>
      .ok (mk_user_mapping_response cfg lookup asn_mapping leases)
  | some (none, _) => .err 404 "User has no ASN assigned"
  | none => .err 404 "User not found"

/-! Concrete /48 blocks of the spec's Scenario B. -/

/-- The block `2001:db8:1::/48`: groups `2001:0db8:0001` in the top 48 bits. -/
def netDb8_1 : Ipv6Net := ⟨0x20010db80001 * 2 ^ 80, 48⟩

/-- The block `2001:db8:2::/48`. -/
def netDb8_2 : Ipv6Net := ⟨0x20010db80002 * 2 ^ 80, 48⟩

/-! Helper lemmas shared by the claim theorems. -/

theorem find_available_asn_aux_some {assigned : List Int} :
    ∀ (n : Nat) (a r : Int), find_available_asn_aux assigned a n = some r →
      a ≤ r ∧ r < a + n ∧ r ∉ assigned ∧ ∀ b, a ≤ b → b < r → b ∈ assigned := by
  intro n
  induction n with
  | zero =>
      intro a r hr
      simp [find_available_asn_aux] at hr
  | succ k ih =>
      intro a r hr
      by_cases hm : a ∈ assigned
      · rw [find_available_asn_aux, if_pos hm] at hr
        obtain ⟨ha1, ha2, ha3, ha4⟩ := ih (a + 1) r hr
        refine ⟨by omega, by omega, ha3, ?_⟩
        intro b hb1 hb2
        rcases eq_or_lt_of_le hb1 with hb | hb
        · exact hb ▸ hm
        · exact ha4 b (by omega) hb2
      · rw [find_available_asn_aux, if_neg hm] at hr
        obtain rfl : a = r := by simpa using hr
        exact ⟨le_refl a, by omega, hm, fun b hb1 hb2 => absurd (lt_of_le_of_lt hb1 hb2) (lt_irrefl a)⟩

theorem find_available_asn_aux_none {assigned : List Int} :
    ∀ (n : Nat) (a : Int), find_available_asn_aux assigned a n = none →
      ∀ b, a ≤ b → b < a + n → b ∈ assigned := by
  intro n
  induction n with
  | zero =>
      intro a _ b hb1 hb2
      omega
  | succ k ih =>
      intro a hr b hb1 hb2
      by_cases hm : a ∈ assigned
      · rw [find_available_asn_aux, if_pos hm] at hr
        rcases eq_or_lt_of_le hb1 with hb | hb
        · exact hb ▸ hm
        · exact ih (a + 1) hr b (by omega) (by omega)
      · rw [find_available_asn_aux, if_neg hm] at hr
        exact absurd hr (by simp)

theorem mem_get_active_user_leases {db : Db} {uh : String} {now : Int}
    {l : PrefixLease} :
    l ∈ get_active_user_leases db uh now ↔
      l ∈ db.prefix_leases ∧ l.user_hash = uh ∧ now < l.end_time := by
  unfold get_active_user_leases
  rw [List.mem_insertionSort, List.mem_filter]
  simp [and_assoc]

theorem mem_get_all_active_leases {db : Db} {now : Int} {l : PrefixLease} :
    l ∈ get_all_active_leases db now ↔
      l ∈ db.prefix_leases ∧ now < l.end_time := by
  unfold get_all_active_leases
  rw [List.mem_insertionSort, List.mem_filter]
  simp

/-! Claim theorems. -/

/-- C4: `find_available_asn` scans `[start, end]` ascending and returns the
smallest value of the interval absent from the committed list; it never
returns a value outside the interval; and when it returns `none` every value
of the interval is committed (exhaustion rather than an error). -/
theorem find_available_asn_spec (s e : Int) (assigned : List Int) :
    (∀ a, find_available_asn s e assigned = some a →
        s ≤ a ∧ a ≤ e ∧ a ∉ assigned ∧ ∀ b, s ≤ b → b < a → b ∈ assigned)
    ∧ (find_available_asn s e assigned = none →
        ∀ b, s ≤ b → b ≤ e → b ∈ assigned) := by
  constructor
  · intro a ha
    obtain ⟨h1, h2, h3, h4⟩ := find_available_asn_aux_some _ _ _ ha
    exact ⟨h1, by omega, h3, h4⟩
  · intro hn b hb1 hb2
    exact find_available_asn_aux_none _ _ hn b hb1 (by omega)

/-- Witness for C4: over the pool `[65000, 65001]` with `65000` committed the
scan returns `65001`, which is in range, free, and preceded only by committed
values. -/
theorem find_available_asn_spec_witness :
    (65000 : Int) ≤ 65001 ∧ (65001 : Int) ≤ 65001
      ∧ (65001 : Int) ∉ [(65000 : Int)]
      ∧ ∀ b : Int, 65000 ≤ b → b < 65001 → b ∈ [(65000 : Int)] :=
  (find_available_asn_spec 65000 65001 [65000]).1 65001 (by decide)

/-- C5: `find_available_prefix` returns the first prefix in load (file) order
absent from the leased set, `none` when every loaded prefix is leased; with
the pool `{2001:db8:1::/48, 2001:db8:2::/48}` and `2001:db8:1::/48` leased,
the available prefix is `2001:db8:2::/48`. -/
theorem findAvailablePrefix_spec :
    (∀ pool leased p, findAvailablePrefix pool leased = some p →
        p ∉ leased ∧ ∃ l1 l2, pool = l1 ++ p :: l2 ∧ ∀ q ∈ l1, q ∈ leased)
    ∧ (∀ pool leased, (∀ p ∈ pool, p ∈ leased) →
        findAvailablePrefix pool leased = none)
    ∧ findAvailablePrefix [netDb8_1, netDb8_2] [netDb8_1] = some netDb8_2 := by
  refine ⟨?_, ?_, by decide⟩
  · intro pool
    induction pool with
    | nil =>
        intro leased p hp
        simp [findAvailablePrefix] at hp
    | cons q rest ih =>
        intro leased p hp
        by_cases hq : q ∈ leased
        · rw [findAvailablePrefix, if_pos hq] at hp
          obtain ⟨hp1, l1, l2, rfl, hall⟩ := ih leased p hp
          refine ⟨hp1, q :: l1, l2, rfl, ?_⟩
          intro x hx
          rcases List.mem_cons.mp hx with hx | hx
          · exact hx ▸ hq
          · exact hall x hx
        · rw [findAvailablePrefix, if_neg hq] at hp
          obtain rfl : q = p := by simpa using hp
          exact ⟨hq, [], rest, rfl, by simp⟩
  · intro pool
    induction pool with
    | nil =>
        intro leased _
        rfl
    | cons q rest ih =>
        intro leased hall
        rw [findAvailablePrefix, if_pos (hall q (by simp))]
        exact ih leased fun p hp => hall p (List.mem_cons_of_mem q hp)

/-- Witness for C5: the returned `2001:db8:2::/48` is unleased and every
pool prefix before it is leased. -/
theorem findAvailablePrefix_spec_witness :
    netDb8_2 ∉ [netDb8_1]
      ∧ ∃ l1 l2, [netDb8_1, netDb8_2] = l1 ++ netDb8_2 :: l2
          ∧ ∀ q ∈ l1, q ∈ [netDb8_1] :=
  findAvailablePrefix_spec.1 [netDb8_1, netDb8_2] [netDb8_1] netDb8_2 (by decide)

/-- C7: a created lease has `end_time = start_time + duration_hours` exactly
(hours in seconds), starts at the insertion instant, and the insert appends a
fresh row, leaving every existing row of both tables untouched. -/
theorem create_prefix_lease_spec (db : Db) (uh : String) (p : Ipv6Net)
    (d : Int) (now : Int) (hd1 : 1 ≤ d) (hd2 : d ≤ 24) :
    (create_prefix_lease db uh p d now).1.end_time
        = (create_prefix_lease db uh p d now).1.start_time + d * 3600
    ∧ (create_prefix_lease db uh p d now).1.start_time = now
    ∧ (create_prefix_lease db uh p d now).2.prefix_leases
        = db.prefix_leases ++ [(create_prefix_lease db uh p d now).1]
    ∧ (create_prefix_lease db uh p d now).2.asn_mappings = db.asn_mappings :=
  ⟨rfl, rfl, rfl, rfl⟩

/-- Witness for C7 at a one-hour lease on the empty store. -/
theorem create_prefix_lease_spec_witness :
    (create_prefix_lease Db.empty "u" netDb8_1 1 0).1.end_time
        = (create_prefix_lease Db.empty "u" netDb8_1 1 0).1.start_time + 1 * 3600
    ∧ (create_prefix_lease Db.empty "u" netDb8_1 1 0).1.start_time = 0
    ∧ (create_prefix_lease Db.empty "u" netDb8_1 1 0).2.prefix_leases
        = Db.empty.prefix_leases ++ [(create_prefix_lease Db.empty "u" netDb8_1 1 0).1]
    ∧ (create_prefix_lease Db.empty "u" netDb8_1 1 0).2.asn_mappings
        = Db.empty.asn_mappings :=
  create_prefix_lease_spec Db.empty "u" netDb8_1 1 0 (by decide) (by decide)

/-- C8: a lease row is returned by the per-handle active query exactly when it
belongs to the handle and its `end_time` is strictly in the future, and by the
system-wide active query exactly when its `end_time` is strictly in the
future; expired rows are excluded from that instant onward. -/
theorem active_lease_queries_spec (db : Db) (uh : String) (now : Int)
    (l : PrefixLease) :
    (l ∈ get_active_user_leases db uh now ↔
        l ∈ db.prefix_leases ∧ l.user_hash = uh ∧ now < l.end_time)
    ∧ (l ∈ get_all_active_leases db now ↔
        l ∈ db.prefix_leases ∧ now < l.end_time) :=
  ⟨mem_get_active_user_leases, mem_get_all_active_leases⟩

/-- C10: on the success path `get_user_info` always returns `some` — a handle
with no ASN row and no lease row yields `some (none, [])`, so at this
interface an unknown handle is indistinguishable from a known handle without
assignments. -/
theorem get_user_info_spec (db : Db) (uh : String) (now : Int) :
    get_user_info db uh now ≠ none
    ∧ ((∀ m ∈ db.asn_mappings, m.user_hash ≠ uh) →
        (∀ l ∈ db.prefix_leases, l.user_hash ≠ uh) →
        get_user_info db uh now = some (none, [])) := by
  constructor
  · simp [get_user_info]
  · intro hm hl
    unfold get_user_info get_user_asn get_active_user_leases
    have h1 : db.asn_mappings.find? (fun m => m.user_hash == uh) = none := by
      rw [List.find?_eq_none]
      intro x hx
      simpa using hm x hx
    have h2 : db.prefix_leases.filter
        (fun l => l.user_hash == uh && decide (now < l.end_time)) = [] := by
      rw [List.filter_eq_nil_iff]
      intro a ha
      simp [hl a ha]
    rw [h1, h2]
    rfl

/-- Witness for C10: a store holding only another user's ASN row answers an
unknown hash with `some (none, [])`, not `none`. -/
theorem get_user_info_spec_witness :
    get_user_info ⟨[⟨"other", none, 65000, 0, 0⟩], []⟩ "unknown" 0
      = some (none, []) :=
  (get_user_info_spec ⟨[⟨"other", none, 65000, 0, 0⟩], []⟩ "unknown" 0).2
    (by decide) (by decide)

/-- C2: a second `get_or_create_user_asn` call for the same handle returns the
same ASN whatever its `asn` argument, and leaves the store exactly as the
first call left it; moreover once a row exists for the handle a call returns
that row and changes nothing. -/
theorem get_or_create_user_asn_idempotent (db : Db) (uh : String)
    (uid1 uid2 : Option String) (a1 a2 : Int) (t1 t2 : Int) :
    (get_or_create_user_asn (get_or_create_user_asn db uh uid1 a1 t1).2 uh uid2 a2 t2).1.asn
        = (get_or_create_user_asn db uh uid1 a1 t1).1.asn
    ∧ (get_or_create_user_asn (get_or_create_user_asn db uh uid1 a1 t1).2 uh uid2 a2 t2).2
        = (get_or_create_user_asn db uh uid1 a1 t1).2
    ∧ (∀ m, get_user_asn db uh = some m →
        get_or_create_user_asn db uh uid1 a1 t1 = (m, db)) := by
  cases hfind : db.asn_mappings.find? (fun m => m.user_hash == uh) with
  | some m =>
      have hfirst : get_or_create_user_asn db uh uid1 a1 t1 = (m, db) := by
        unfold get_or_create_user_asn
        rw [hfind]
      refine ⟨?_, ?_, ?_⟩
      · rw [hfirst]
        unfold get_or_create_user_asn
        rw [hfind]
      · rw [hfirst]
        unfold get_or_create_user_asn
        rw [hfind]
      · intro m' hm'
        unfold get_user_asn at hm'
        rw [hfind] at hm'
        cases hm'
        exact hfirst
  | none =>
      have hfirst : get_or_create_user_asn db uh uid1 a1 t1
          = (⟨uh, uid1, a1, t1, t1⟩,
             { db with asn_mappings := db.asn_mappings ++ [⟨uh, uid1, a1, t1, t1⟩] }) := by
        unfold get_or_create_user_asn upsert_user_asn
        rw [hfind]
      have hfind2 : (db.asn_mappings ++ [(⟨uh, uid1, a1, t1, t1⟩ : UserAsnMapping)]).find?
          (fun m => m.user_hash == uh) = some ⟨uh, uid1, a1, t1, t1⟩ := by
        rw [List.find?_append, hfind]
        simp [List.find?]
      have hsecond : get_or_create_user_asn (get_or_create_user_asn db uh uid1 a1 t1).2 uh uid2 a2 t2
          = (⟨uh, uid1, a1, t1, t1⟩, (get_or_create_user_asn db uh uid1 a1 t1).2) := by
        rw [hfirst]
        unfold get_or_create_user_asn
        rw [hfind2]
      refine ⟨?_, ?_, ?_⟩
      · rw [hsecond, hfirst]
      · rw [hsecond]
      · intro m' hm'
        unfold get_user_asn at hm'
        rw [hfind] at hm'
        cases hm'

/-- Witness for C2: with a row `("u", 65000)` present, a call carrying the
different ASN argument `65001` returns the existing row and leaves the store
unchanged. -/
theorem get_or_create_user_asn_idempotent_witness :
    get_or_create_user_asn ⟨[⟨"u", none, 65000, 0, 0⟩], []⟩ "u" none 65001 5
      = (⟨"u", none, 65000, 0, 0⟩, ⟨[⟨"u", none, 65000, 0, 0⟩], []⟩) :=
  (get_or_create_user_asn_idempotent ⟨[⟨"u", none, 65000, 0, 0⟩], []⟩ "u"
      none none 65001 65002 5 6).2.2 ⟨"u", none, 65000, 0, 0⟩ rfl

/-- C6: a `duration_hours` outside `[1, 24]` makes `request_prefix` return the
400 validation error with the store untouched and an empty pool/store
operation trace (rejected before any pool lookup or store access); a duration
inside `[1, 24]` never produces that validation error. -/
theorem request_prefix_validation_spec (pool : List Ipv6Net) (db : Db)
    (now : Int) (uh : String) (d : Int) :
    ((d < 1 ∨ d > 24) →
        requestPrefix pool db now uh d
          = (.err 400 "Duration must be between 1 and 24 hours", db, []))
    ∧ (1 ≤ d → d ≤ 24 →
        (requestPrefix pool db now uh d).1
          ≠ .err 400 "Duration must be between 1 and 24 hours") := by
  constructor
  · intro hd
    unfold requestPrefix
    rw [if_pos hd]
  · intro hd1 hd2
    have hd : ¬(d < 1 ∨ d > 24) := by omega
    unfold requestPrefix
    rw [if_neg hd]
    dsimp only
    split <;> simp

/-- Witness for C6: a 25-hour request against the empty store is rejected
with 400, no store change, and an empty operation trace. -/
theorem request_prefix_validation_spec_witness :
    requestPrefix [netDb8_1] Db.empty 0 "u" 25
      = (.err 400 "Duration must be between 1 and 24 hours", Db.empty, []) :=
  (request_prefix_validation_spec [netDb8_1] Db.empty 0 "u" 25).1 (by decide)

/-- C1 (divergence witness): the handler `get_user_mapping` can never produce
the 404 body "User not found" — `get_user_info` always returns `some`, so an
unknown `user_hash` (here against the empty store) is answered with 404
"User has no ASN assigned", the same body a known handle without an ASN
receives. -/
theorem get_user_mapping_not_found_unreachable :
    (∀ (db : Db) (now : Int) (cfg : EnrichCfg) (lookup : EmailLookup)
        (uh : String),
        get_user_mapping db now cfg lookup uh ≠ .err 404 "User not found")
    ∧ get_user_mapping Db.empty 0 ⟨none, none, none⟩
        (fun _ _ _ _ => .error "unavailable") "deadbeef"
      = .err 404 "User has no ASN assigned" := by
  constructor
  · intro db now cfg lookup uh
    unfold get_user_mapping get_user_info
    cases hfind : get_user_asn db uh with
    | some m => simp
    | none => simp
  · rfl

/-- Witness for C1: the unreachability of "User not found" instantiated at
the empty store and an unknown hash. -/
theorem get_user_mapping_not_found_unreachable_witness :
    get_user_mapping Db.empty 0 ⟨none, none, none⟩
        (fun _ _ _ _ => .error "unavailable") "deadbeef"
      ≠ .err 404 "User not found" :=
  get_user_mapping_not_found_unreachable.1 Db.empty 0 ⟨none, none, none⟩
    (fun _ _ _ _ => .error "unavailable") "deadbeef"

/-- Copy of a mapping response with its enrichment field cleared: the
"non-email fields" of a response. -/
def erase_email (m : UserMappingResponse) : UserMappingResponse :=
  { m with email := none }

/-- Outcome of `GET /service/mappings` with every email field cleared. -/
def erase_emails_all :
    HandlerResult AllMappingsResponse → HandlerResult AllMappingsResponse
  | .ok resp => .ok { mappings := resp.mappings.map erase_email }
  | .err c msg => .err c msg

/-- Outcome of `GET /service/mappings/{user_hash}` with the email field
cleared. -/
def erase_email_single :
    HandlerResult UserMappingResponse → HandlerResult UserMappingResponse
  | .ok resp => .ok (erase_email resp)
  | .err c msg => .err c msg

theorem fetch_email_none {cfg : EnrichCfg} {lookup : EmailLookup}
    (hfail : (∀ a b c d, ∃ e, lookup a b c d = Except.error e)
      ∨ cfg.management_api = none ∨ cfg.m2m_app_id = none
      ∨ cfg.m2m_app_secret = none)
    (uid : Option String) : fetch_email cfg lookup uid = none := by
  obtain ⟨ma, ai, sec⟩ := cfg
  cases uid with
  | none => rfl
  | some u =>
      cases ma with
      | none => rfl
      | some a =>
          cases ai with
          | none => rfl
          | some i =>
              cases sec with
              | none => rfl
              | some s =>
                  rcases hfail with hf | hf | hf | hf
                  · obtain ⟨err, herr⟩ := hf u a i s
                    unfold fetch_email
                    dsimp only
                    rw [herr]
                  · exact absurd hf (by simp)
                  · exact absurd hf (by simp)
                  · exact absurd hf (by simp)

/-- C9: when the email lookup fails on every call, or any piece of its
configuration is missing, every mapping response still succeeds with an empty
email field, and stripping emails the responses are those any other lookup
would have produced — the same `user_hash`, `asn` and `prefixes`, for both
the all-mappings and the single-handle handler. -/
theorem enrichment_failure_spec (db : Db) (now : Int) (cfg : EnrichCfg)
    (lookup lookup' : EmailLookup) (uh : String)
    (hfail : (∀ a b c d, ∃ e, lookup a b c d = Except.error e)
      ∨ cfg.management_api = none ∨ cfg.m2m_app_id = none
      ∨ cfg.m2m_app_secret = none) :
    (∃ resp, get_all_mappings db now cfg lookup = .ok resp
        ∧ ∀ m ∈ resp.mappings, m.email = none)
    ∧ erase_emails_all (get_all_mappings db now cfg lookup)
        = erase_emails_all (get_all_mappings db now cfg lookup')
    ∧ erase_email_single (get_user_mapping db now cfg lookup uh)
        = erase_email_single (get_user_mapping db now cfg lookup' uh)
    ∧ (∀ resp, get_user_mapping db now cfg lookup uh = .ok resp →
        resp.email = none) := by
  have hkey : ∀ (lk lk' : EmailLookup) (m : UserAsnMapping)
      (ls : List PrefixLease),
      erase_email (mk_user_mapping_response cfg lk m ls)
        = erase_email (mk_user_mapping_response cfg lk' m ls) := by
    intro lk lk' m ls
    rfl
  refine ⟨?_, ?_, ?_, ?_⟩
  · refine ⟨_, rfl, ?_⟩
    intro m hm
    rw [List.mem_map] at hm
    obtain ⟨x, _, rfl⟩ := hm
    exact fetch_email_none hfail x.1.user_id
  · unfold get_all_mappings erase_emails_all
    dsimp only
    congr 1
    rw [List.map_map, List.map_map]
    have hfun : (erase_email ∘ fun x : UserAsnMapping × List PrefixLease =>
          mk_user_mapping_response cfg lookup x.1 x.2)
        = (erase_email ∘ fun x : UserAsnMapping × List PrefixLease =>
          mk_user_mapping_response cfg lookup' x.1 x.2) := by
      funext x
      exact hkey lookup lookup' x.1 x.2
    rw [hfun]
  · unfold get_user_mapping get_user_info
    dsimp only
    cases hfind : get_user_asn db uh with
    | some m =>
        unfold erase_email_single
        dsimp only
        exact congrArg HandlerResult.ok (hkey lookup lookup' m _)
    | none => rfl
  · intro resp hresp
    unfold get_user_mapping get_user_info at hresp
    dsimp only at hresp
    cases hfind : get_user_asn db uh with
    | some m =>
        rw [hfind] at hresp
        cases hresp
        exact fetch_email_none hfail m.user_id
    | none =>
        rw [hfind] at hresp
        cases hresp

/-- Email lookup that fails on every call. -/
def lookup_fails : EmailLookup := fun _ _ _ _ => .error "unavailable"

/-- Email lookup that succeeds on every call. -/
def lookup_finds : EmailLookup := fun _ _ _ _ => .ok (some "user@example.net")

/-- Store with one mapped user, for concrete instantiations. -/
def sample_db : Db := ⟨[⟨"u", some "sub", 65000, 0, 0⟩], []⟩

/-- Complete enrichment configuration, for concrete instantiations. -/
def sample_cfg : EnrichCfg := ⟨some "https://idp/api", some "app", some "secret"⟩

/-- Witness for C9: over `sample_db` with complete configuration, the failing
lookup yields a successful response with empty emails whose stripped form
equals the one produced under a succeeding lookup. -/
theorem enrichment_failure_spec_witness :
    (∃ resp, get_all_mappings sample_db 0 sample_cfg lookup_fails = .ok resp
        ∧ ∀ m ∈ resp.mappings, m.email = none)
    ∧ erase_emails_all (get_all_mappings sample_db 0 sample_cfg lookup_fails)
        = erase_emails_all (get_all_mappings sample_db 0 sample_cfg lookup_finds)
    ∧ erase_email_single (get_user_mapping sample_db 0 sample_cfg lookup_fails "u")
        = erase_email_single (get_user_mapping sample_db 0 sample_cfg lookup_finds "u")
    ∧ (∀ resp, get_user_mapping sample_db 0 sample_cfg lookup_fails "u" = .ok resp →
        resp.email = none) :=
  enrichment_failure_spec sample_db 0 sample_cfg lookup_fails lookup_finds "u"
    (Or.inl fun _ _ _ _ => ⟨"unavailable", rfl⟩)

/-- C3: the check-occupancy-then-insert sequences are not isolated from each
other. In the interleaving where two concurrent requests (distinct handles
`h1 ≠ h2`) both run their read phase against the store state preceding either
commit, both observe the same lowest free candidate — `s` for the ASN pool
`[s, e]`, `p` for the prefix pool `[p]` — and both commit it: the final store
maps both handles to the ASN `s`, and holds two active leases on the
identical block `p` for overlapping windows (both active at instant `t`). -/
theorem allocation_race_spec (s e : Int) (h1 h2 : String) (d : Int)
    (t : Int) (p : Ipv6Net) (hse : s ≤ e) (hne : h1 ≠ h2)
    (hd1 : 1 ≤ d) (hd2 : d ≤ 24) :
    (request_asn_choose s e Db.empty t h1 = some s
      ∧ request_asn_choose s e Db.empty t h2 = some s
      ∧ ∃ m1 m2,
          get_user_asn
              (request_asn_commit (request_asn_commit Db.empty h1 h1 s t) h2 h2 s t) h1
            = some m1
          ∧ get_user_asn
              (request_asn_commit (request_asn_commit Db.empty h1 h1 s t) h2 h2 s t) h2
            = some m2
          ∧ m1.asn = s ∧ m2.asn = s)
    ∧ (request_prefix_choose [p] Db.empty t d = some p
      ∧ ∃ l1 l2,
          l1 ∈ get_all_active_leases
              (request_prefix_commit (request_prefix_commit Db.empty h1 p d t) h2 p d t) t
          ∧ l2 ∈ get_all_active_leases
              (request_prefix_commit (request_prefix_commit Db.empty h1 p d t) h2 p d t) t
          ∧ l1.user_hash = h1 ∧ l2.user_hash = h2 ∧ l1.pfx = p ∧ l2.pfx = p) := by
  have hbeq : (h1 == h2) = false := beq_eq_false_iff_ne.mpr hne
  have hchoose : ∀ hh : String, request_asn_choose s e Db.empty t hh = some s := by
    intro hh
    show find_available_asn s e [] = some s
    unfold find_available_asn
    have hfuel : (e + 1 - s).toNat = (e - s).toNat + 1 := by omega
    rw [hfuel]
    simp [find_available_asn_aux]
  have hdb1 : request_asn_commit Db.empty h1 h1 s t
      = ⟨[⟨h1, some h1, s, t, t⟩], []⟩ := rfl
  have hdb2 : request_asn_commit (request_asn_commit Db.empty h1 h1 s t) h2 h2 s t
      = ⟨[⟨h1, some h1, s, t, t⟩, ⟨h2, some h2, s, t, t⟩], []⟩ := by
    rw [hdb1]
    unfold request_asn_commit get_or_create_user_asn upsert_user_asn
    simp [List.find?, hbeq]
  refine ⟨⟨hchoose h1, hchoose h2, ⟨h1, some h1, s, t, t⟩, ⟨h2, some h2, s, t, t⟩,
      ?_, ?_, rfl, rfl⟩, ?_, ?_⟩
  · rw [hdb2]
    unfold get_user_asn
    simp [List.find?]
  · rw [hdb2]
    unfold get_user_asn
    simp [List.find?, hbeq]
  · unfold request_prefix_choose
    rw [if_neg (by omega : ¬(d < 1 ∨ d > 24))]
    rfl
  · have hdbB : request_prefix_commit (request_prefix_commit Db.empty h1 p d t) h2 p d t
        = ⟨[], [⟨h1, p, t, t + d * 3600, t, t⟩, ⟨h2, p, t, t + d * 3600, t, t⟩]⟩ := rfl
    have hlt : (t : Int) < t + d * 3600 := by omega
    refine ⟨⟨h1, p, t, t + d * 3600, t, t⟩, ⟨h2, p, t, t + d * 3600, t, t⟩,
        ?_, ?_, rfl, rfl, rfl, rfl⟩
    · rw [hdbB]
      exact mem_get_all_active_leases.mpr ⟨by simp, hlt⟩
    · rw [hdbB]
      exact mem_get_all_active_leases.mpr ⟨by simp, hlt⟩

/-- Witness for C3: pool `[65000, 65001]`, handles `"alice" ≠ "bob"`, a
one-hour lease on the block `2001:db8:1::/48`, both read phases taken at the
empty store. -/
theorem allocation_race_spec_witness :
    (request_asn_choose 65000 65001 Db.empty 0 "alice" = some 65000
      ∧ request_asn_choose 65000 65001 Db.empty 0 "bob" = some 65000
      ∧ ∃ m1 m2,
          get_user_asn
              (request_asn_commit (request_asn_commit Db.empty "alice" "alice" 65000 0)
                "bob" "bob" 65000 0) "alice"
            = some m1
          ∧ get_user_asn
              (request_asn_commit (request_asn_commit Db.empty "alice" "alice" 65000 0)
                "bob" "bob" 65000 0) "bob"
            = some m2
          ∧ m1.asn = 65000 ∧ m2.asn = 65000)
    ∧ (request_prefix_choose [netDb8_1] Db.empty 0 1 = some netDb8_1
      ∧ ∃ l1 l2,
          l1 ∈ get_all_active_leases
              (request_prefix_commit (request_prefix_commit Db.empty "alice" netDb8_1 1 0)
                "bob" netDb8_1 1 0) 0
          ∧ l2 ∈ get_all_active_leases
              (request_prefix_commit (request_prefix_commit Db.empty "alice" netDb8_1 1 0)
                "bob" netDb8_1 1 0) 0
          ∧ l1.user_hash = "alice" ∧ l2.user_hash = "bob"
          ∧ l1.pfx = netDb8_1 ∧ l2.pfx = netDb8_1) :=
  allocation_race_spec 65000 65001 "alice" "bob" 1 0 netDb8_1
    (by decide) (by decide) (by decide) (by decide)

end PeerlabGateway
